import Mathlib

/-!
Verification development for the leaseon football-transfer predictor.

The Python sources are shallowly embedded:
* `app/data_collection.py` — `FootballDataCollector.generate_mock_data`
  (the synthetic training-data generator);
* `app/model_training.py` — `TransferPredictor` (`prepare_data`,
  `train`, `predict_transfer_probability`, the club registry);
* `app/main.py` — the `/predict/multi-club` handler (`predict_multi_club`)
  and the request-boundary defaults of `PlayerData`.

Numeric values are modelled with `ℚ` (exact arithmetic in place of IEEE
floats; none of the verified properties depends on rounding).  Library
calls (numpy RNG, sklearn) are modelled at their documented interfaces:
`np.random.randint(lo, hi)` draws from the half-open range `[lo, hi)`, so
it is modelled as `lo + n % (hi - lo)` over an arbitrary raw draw `n`;
the random-forest classifier and its `predict_proba` are abstracted as a
function parameter; `StandardScaler.transform` applies stored per-column
statistics.
-/

namespace Leaseon

/-! ### Synthetic data generator (`data_collection.py`, `generate_mock_data`) -/

/-- Model of `np.random.randint(lo, hi)`: a uniform draw from the half-open
range `[lo, hi)`, applied to a raw source value `n`. -/
def randint (lo hi n : ℕ) : ℕ := lo + n % (hi - lo)

/-- The positions table of `generate_mock_data` (Goalkeeper, Defender,
Midfielder, Attacker). -/
def positionsList : List String := ["Goalkeeper", "Defender", "Midfielder", "Attacker"]

/-- The raw random draws consumed by one loop iteration of
`generate_mock_data`: one source value per `np.random` call. -/
structure RowDraws where
  dAge : ℕ
  dMv : ℕ
  dGoals : ℕ
  bGoals : Bool
  dAssists : ℕ
  dMin : ℕ
  dPos : ℕ
  dBudget : ℕ
  dLeague : ℕ
  bCL : Bool
  dContract : ℕ
  bWants : Bool
  dNeed : ℕ
  noise : ℚ

/-- The player/club attributes drawn for one synthetic row
(lines 91-108 of `data_collection.py`). -/
structure Attrs where
  age : ℕ
  mv : ℕ
  goals : ℕ
  assists : ℕ
  minutes : ℕ
  position : String
  budget : ℕ
  league : ℕ
  cl : ℕ
  contract : ℕ
  wants : ℕ
  need : ℕ

/-- Attribute draws of one row, following the source line by line. -/
def drawAttrs (d : RowDraws) : Attrs where
  age := randint 18 35 d.dAge
  mv := randint 5 100 d.dMv * 1000000
  goals := if d.bGoals then randint 0 30 d.dGoals else 0
  assists := randint 0 20 d.dAssists
  minutes := randint 500 3500 d.dMin
  position := positionsList.getD (d.dPos % 4) "Goalkeeper"
  budget := randint 50 200 d.dBudget * 1000000
  league := randint 1 20 d.dLeague
  cl := if d.bCL then 1 else 0
  contract := randint 0 5 d.dContract
  wants := if d.bWants then 1 else 0
  need := d.dNeed % 4

/-- The `base_prob` accumulation of `generate_mock_data`
(lines 111-142), transcribed statement by statement. -/
def codeScore (a : Attrs) : ℚ :=
  let b : ℚ := 0.1
  let b := if 22 ≤ a.age ∧ a.age ≤ 28 then b + 0.3 else if 30 < a.age then b - 0.2 else b
  let b := if (a.mv : ℚ) ≤ (a.budget : ℚ) * 0.3 then b + 0.4
           else if (a.budget : ℚ) * 0.5 < (a.mv : ℚ) then b - 0.3 else b
  let b := if 15 < a.goals ∨ 10 < a.assists then b + 0.2 else b
  let b := b + (a.need : ℚ) * 0.15
  let b := if a.contract ≤ 1 then b + 0.25 else b
  let b := if a.wants ≠ 0 then b + 0.2 else b
  let b := if a.cl ≠ 0 then b + 0.1 else b
  b

/-- One row of the generated dataset. -/
structure TrainingRow where
  player_age : ℕ
  market_value : ℕ
  goals : ℕ
  assists : ℕ
  minutes_played : ℕ
  position : String
  club_budget : ℕ
  club_league_position : ℕ
  club_champions_league : ℕ
  contract_years_left : ℕ
  player_wants_move : ℕ
  position_need : ℕ
  transfer_happened : ℕ
  transfer_probability : ℚ

/-- One loop iteration of `generate_mock_data`: draw the attributes,
score them, clamp the noisy score and threshold the label. -/
def genRow (d : RowDraws) : TrainingRow :=
  let a := drawAttrs d
  let p := max 0 (min 1 (codeScore a + d.noise))
  { player_age := a.age
    market_value := a.mv
    goals := a.goals
    assists := a.assists
    minutes_played := a.minutes
    position := a.position
    club_budget := a.budget
    club_league_position := a.league
    club_champions_league := a.cl
    contract_years_left := a.contract
    player_wants_move := a.wants
    position_need := a.need
    transfer_happened := if 0.6 < p then 1 else 0
    transfer_probability := p }

/-- The transfer score exactly as the specification words it: base 0.1
plus independent additive adjustments (claim C1's formula). -/
def specScore (a : Attrs) : ℚ :=
  0.1 + (if 22 ≤ a.age ∧ a.age ≤ 28 then 0.3 else 0)
      + (if 30 < a.age then -0.2 else 0)
      + (if (a.mv : ℚ) ≤ (a.budget : ℚ) * 0.3 then 0.4 else 0)
      + (if (a.budget : ℚ) * 0.5 < (a.mv : ℚ) then -0.3 else 0)
      + (if 15 < a.goals ∨ 10 < a.assists then 0.2 else 0)
      + (a.need : ℚ) * 0.15
      + (if a.contract ≤ 1 then 0.25 else 0)
      + (if a.wants ≠ 0 then 0.2 else 0)
      + (if a.cl ≠ 0 then 0.1 else 0)

lemma step_if (c : Prop) [Decidable c] (b x : ℚ) :
    (if c then b + x else b) = b + (if c then x else 0) := by
  by_cases h : c <;> simp [h]

lemma step_elif_sub (c1 c2 : Prop) [Decidable c1] [Decidable c2] (h : c1 → ¬c2) (b x y : ℚ) :
    (if c1 then b + x else if c2 then b - y else b)
      = b + ((if c1 then x else 0) + (if c2 then -y else 0)) := by
  by_cases h1 : c1
  · simp [h1, h h1]
  · by_cases h2 : c2
    · simp [h1, h2]
      ring
    · simp [h1, h2]

lemma codeScore_eq_specScore (a : Attrs) : codeScore a = specScore a := by
  have hb : (0 : ℚ) ≤ (a.budget : ℚ) := Nat.cast_nonneg _
  have hage : 22 ≤ a.age ∧ a.age ≤ 28 → ¬(30 < a.age) := by omega
  have hbud : (a.mv : ℚ) ≤ (a.budget : ℚ) * 0.3 → ¬((a.budget : ℚ) * 0.5 < (a.mv : ℚ)) := by
    intro h1 h2
    linarith
  simp only [codeScore, specScore]
  rw [step_if, step_if, step_if, step_if, step_elif_sub _ _ hbud, step_elif_sub _ _ hage]
  norm_num
  ring

/-- C1: each generated row's `transfer_probability` is the clamp to `[0,1]`
of the additive base score plus the drawn noise, `transfer_happened` is `1`
iff the probability exceeds `0.6`, and the probability lies in `[0,1]`. -/
theorem C1_generator_scoring (d : RowDraws) :
    (genRow d).transfer_probability = max 0 (min 1 (specScore (drawAttrs d) + d.noise))
    ∧ (genRow d).transfer_happened =
        (if 0.6 < (genRow d).transfer_probability then 1 else 0)
    ∧ 0 ≤ (genRow d).transfer_probability
    ∧ (genRow d).transfer_probability ≤ 1 := by
  refine ⟨?_, rfl, le_max_left _ _, ?_⟩
  · simp [genRow, codeScore_eq_specScore]
  · simp only [genRow]
    exact max_le (by norm_num) (min_le_left _ _)

/-- A zero draw, used as the base point for concrete generator inputs. -/
def d0 : RowDraws :=
  { dAge := 0, dMv := 0, dGoals := 0, bGoals := false, dAssists := 0, dMin := 0, dPos := 0
    dBudget := 0, dLeague := 0, bCL := false, dContract := 0, bWants := false, dNeed := 0
    noise := 0 }

/-- C7 counterexample: no generated row ever has `player_age = 35`, because
`np.random.randint(18, 35)` draws from the half-open range `[18, 35)`; the
claimed inclusive upper endpoints are unattainable. -/
theorem C7_counterexample : ¬ ∃ d : RowDraws, (genRow d).player_age = 35 := by
  rintro ⟨d, h⟩
  have hm : d.dAge % 17 < 17 := Nat.mod_lt _ (by norm_num)
  simp [genRow, drawAttrs, randint] at h
  omega

/-- C7 (amended): every synthetic attribute is drawn within the half-open
numpy range, so the attained ranges are `age ∈ [18,34]`,
`market_value ∈ [5M,99M]` in 1M steps, `goals ∈ [0,29]` (0 when absent),
`assists ∈ [0,19]`, `minutes ∈ [500,3499]`, `budget ∈ [50M,199M]` in 1M
steps, `league ∈ [1,19]`, `contract ∈ [0,4]`, `need ∈ {0,1,2,3}`, and each
of these upper endpoints is attained by some draw. -/
theorem C7_generator_ranges :
    (∀ d : RowDraws,
      18 ≤ (genRow d).player_age ∧ (genRow d).player_age ≤ 34
      ∧ 5000000 ≤ (genRow d).market_value ∧ (genRow d).market_value ≤ 99000000
      ∧ 1000000 ∣ (genRow d).market_value
      ∧ (genRow d).goals ≤ 29
      ∧ (genRow d).assists ≤ 19
      ∧ 500 ≤ (genRow d).minutes_played ∧ (genRow d).minutes_played ≤ 3499
      ∧ 50000000 ≤ (genRow d).club_budget ∧ (genRow d).club_budget ≤ 199000000
      ∧ 1000000 ∣ (genRow d).club_budget
      ∧ 1 ≤ (genRow d).club_league_position ∧ (genRow d).club_league_position ≤ 19
      ∧ (genRow d).contract_years_left ≤ 4
      ∧ (genRow d).position_need ≤ 3)
    ∧ (∃ d, (genRow d).player_age = 34)
    ∧ (∃ d, (genRow d).market_value = 99000000)
    ∧ (∃ d, (genRow d).goals = 29)
    ∧ (∃ d, (genRow d).assists = 19)
    ∧ (∃ d, (genRow d).minutes_played = 3499)
    ∧ (∃ d, (genRow d).club_budget = 199000000)
    ∧ (∃ d, (genRow d).club_league_position = 19)
    ∧ (∃ d, (genRow d).contract_years_left = 4)
    ∧ (∃ d, (genRow d).position_need = 3) := by
  refine ⟨?_, ⟨{ d0 with dAge := 16 }, rfl⟩, ⟨{ d0 with dMv := 94 }, rfl⟩,
    ⟨{ d0 with bGoals := true, dGoals := 29 }, rfl⟩, ⟨{ d0 with dAssists := 19 }, rfl⟩,
    ⟨{ d0 with dMin := 2999 }, rfl⟩, ⟨{ d0 with dBudget := 149 }, rfl⟩,
    ⟨{ d0 with dLeague := 18 }, rfl⟩, ⟨{ d0 with dContract := 4 }, rfl⟩,
    ⟨{ d0 with dNeed := 3 }, rfl⟩⟩
  intro d
  have h1 : d.dAge % 17 < 17 := Nat.mod_lt _ (by norm_num)
  have h2 : d.dMv % 95 < 95 := Nat.mod_lt _ (by norm_num)
  have h3 : d.dGoals % 30 < 30 := Nat.mod_lt _ (by norm_num)
  have h4 : d.dAssists % 20 < 20 := Nat.mod_lt _ (by norm_num)
  have h5 : d.dMin % 3000 < 3000 := Nat.mod_lt _ (by norm_num)
  have h6 : d.dBudget % 150 < 150 := Nat.mod_lt _ (by norm_num)
  have h7 : d.dLeague % 19 < 19 := Nat.mod_lt _ (by norm_num)
  have h8 : d.dContract % 5 < 5 := Nat.mod_lt _ (by norm_num)
  have h9 : d.dNeed % 4 < 4 := Nat.mod_lt _ (by norm_num)
  simp only [genRow, drawAttrs, randint]
  refine ⟨by omega, by omega, by omega, by omega, ⟨5 + d.dMv % 95, by ring⟩,
    ?_, by omega, by omega, by omega, by omega, by omega, ⟨50 + d.dBudget % 150, by ring⟩,
    by omega, by omega, by omega, by omega⟩
  cases d.bGoals
  · simp
  · simp
    omega

/-! ### Club registry and prediction service (`model_training.py`) -/

/-- One entry of the `big6_clubs` registry. -/
structure ClubInfo where
  budget : ℕ
  cl_qualified : ℕ
  league_pos : ℕ
deriving DecidableEq

/-- The `big6_clubs` table of `TransferPredictor.__init__`. -/
def big6_clubs : List (String × ClubInfo) :=
  [("Manchester City", ⟨180000000, 1, 1⟩),
   ("Arsenal", ⟨150000000, 1, 2⟩),
   ("Liverpool", ⟨140000000, 1, 3⟩),
   ("Chelsea", ⟨200000000, 0, 6⟩),
   ("Manchester United", ⟨160000000, 0, 8⟩),
   ("Tottenham", ⟨120000000, 0, 5⟩)]

/-- The generic default profile used by
`self.big6_clubs.get(club_name, {...})` for unresolved clubs. -/
def fallbackClubInfo : ClubInfo := ⟨100000000, 0, 10⟩

/-- The loaded predictor state: classifier, scaler statistics, label
encoders, recorded feature-name order and the club registry.  The
random-forest classifier is abstracted as a function from a scaled feature
vector to the class-1 probability and the hard label, and the scaler as
the per-column `(mean, scale)` statistics applied by
`StandardScaler.transform`. -/
structure Predictor where
  model : List ℚ → ℚ × ℕ
  scaler : List (ℚ × ℚ)
  label_encoders : List (String × List String)
  feature_names : List String
  clubs : List (String × ClubInfo)

/-- The `player_data` dict argument of `predict_transfer_probability`:
each key may be present or absent. -/
structure PlayerDict where
  age : Option ℚ := none
  market_value : Option ℚ := none
  goals : Option ℚ := none
  assists : Option ℚ := none
  minutes_played : Option ℚ := none
  position : Option String := none
  contract_years_left : Option ℚ := none
  player_wants_move : Option ℚ := none
  position_need : Option ℚ := none

/-- The single-row `input_data` record assembled by
`predict_transfer_probability` (lines 119-132). -/
structure InputRow where
  player_age : ℚ
  market_value : ℚ
  goals : ℚ
  assists : ℚ
  minutes_played : ℚ
  position : String
  club_budget : ℚ
  club_league_position : ℚ
  club_champions_league : ℚ
  contract_years_left : ℚ
  player_wants_move : ℚ
  position_need : ℚ
deriving DecidableEq

/-- Resolution of the target club: `self.big6_clubs.get` with the generic
default profile. -/
def resolveClub (P : Predictor) (club : String) : ClubInfo :=
  (P.clubs.lookup club).getD fallbackClubInfo

/-- The `input_data` record assembled with the in-function defaults of
`player_data.get` (lines 120-131). -/
def input_data (p : PlayerDict) (ci : ClubInfo) : InputRow where
  player_age := p.age.getD 25
  market_value := p.market_value.getD 20000000
  goals := p.goals.getD 5
  assists := p.assists.getD 3
  minutes_played := p.minutes_played.getD 2000
  position := p.position.getD "Midfielder"
  club_budget := ci.budget
  club_league_position := ci.league_pos
  club_champions_league := ci.cl_qualified
  contract_years_left := p.contract_years_left.getD 2
  player_wants_move := p.player_wants_move.getD 0
  position_need := p.position_need.getD 1

/-- Index of a value in a fitted `LabelEncoder`'s class list
(`encoder.transform` yields the index; an unknown value is a
`ValueError`, modelled as `none`). -/
def classIndex (cs : List String) (pos : String) : Option ℕ :=
  match cs with
  | [] => none
  | c :: t => if c == pos then some 0 else (classIndex t pos).map (· + 1)

/-- The encoding step for the `position` column: `encoder.transform`
wrapped in `try/except ValueError`, which assigns the fallback code 0 to
unseen categories (lines 138-144).  `none` means no fitted encoder for
`position`, in which case the raw string reaches the scaler and the
request fails. -/
def encodePosition (encs : List (String × List String)) (pos : String) : Option ℚ :=
  (encs.lookup "position").map fun cs =>
    match classIndex cs pos with
    | some i => (i : ℚ)
    | none => 0

/-- The fixed candidate feature order of `prepare_data` (lines 53-57). -/
def allFeatureCols : List String :=
  ["player_age", "market_value", "goals", "assists", "minutes_played",
   "position", "club_budget", "club_league_position", "club_champions_league",
   "contract_years_left", "player_wants_move", "position_need"]

/-- One cell of the encoded single-row inference frame
(`input_df[col]` after the encoding loop); a column name outside the
frame is a `KeyError`, modelled as `none`. -/
def featureOf (P : Predictor) (row : InputRow) (f : String) : Option ℚ :=
  if f = "player_age" then some row.player_age
  else if f = "market_value" then some row.market_value
  else if f = "goals" then some row.goals
  else if f = "assists" then some row.assists
  else if f = "minutes_played" then some row.minutes_played
  else if f = "position" then encodePosition P.label_encoders row.position
  else if f = "club_budget" then some row.club_budget
  else if f = "club_league_position" then some row.club_league_position
  else if f = "club_champions_league" then some row.club_champions_league
  else if f = "contract_years_left" then some row.contract_years_left
  else if f = "player_wants_move" then some row.player_wants_move
  else if f = "position_need" then some row.position_need
  else none

/-- Selection `X = input_df[self.feature_names]`: the feature cells in the recorded
order, failing if any requested column is unavailable. -/
def seqFeatures (P : Predictor) (row : InputRow) : List String → Option (List ℚ)
  | [] => some []
  | f :: fs =>
    match featureOf P row f, seqFeatures P row fs with
    | some x, some xs => some (x :: xs)
    | _, _ => none

/-- The inference-time feature vector for the recorded feature names. -/
def featuresVec (P : Predictor) (row : InputRow) : Option (List ℚ) :=
  seqFeatures P row P.feature_names

/-- Application of `self.scaler.transform(X)`: the stored per-column statistics;
sklearn rejects a feature-count mismatch. -/
def scalerTransform (sc : List (ℚ × ℚ)) (v : List ℚ) : Option (List ℚ) :=
  if sc.length = v.length then some (List.zipWith (fun p x => (x - p.1) / p.2) sc v) else none

/-- The per-prediction record returned by `predict_transfer_probability`
(lines 156-160). -/
structure MTPred where
  transfer_probability : ℚ
  prediction : ℕ
  confidence : String
deriving DecidableEq

/-- Embeds `TransferPredictor.predict_transfer_probability` (lines 108-160):
resolve the club, fill defaults, encode, order features, scale, and invoke
the classifier; confidence is `High` for probabilities beyond 0.7 or below
0.3, else `Medium`. -/
def predict_transfer_probability (P : Predictor) (pd : PlayerDict) (club : String) :
    Except String MTPred :=
  let ci := resolveClub P club
  let row := input_data pd ci
  match featuresVec P row with
  | none => .error "invalid feature column"
  | some v =>
    match scalerTransform P.scaler v with
    | none => .error "scaler dimension mismatch"
    | some vs =>
      let pr := P.model vs
      .ok { transfer_probability := pr.1, prediction := pr.2,
            confidence := if 0.7 < pr.1 ∨ pr.1 < 0.3 then "High" else "Medium" }

/-- Consistency of a loaded artifact: recorded feature names are among the
known columns, a `position` feature has a fitted encoder, and the scaler
statistics match the feature count (spec §6: the bundle components are
mutually consistent). -/
def WellFormed (P : Predictor) : Prop :=
  (∀ f ∈ P.feature_names, f ∈ allFeatureCols)
  ∧ ("position" ∈ P.feature_names → (P.label_encoders.lookup "position").isSome = true)
  ∧ P.scaler.length = P.feature_names.length

/-! ### Data preparation (`prepare_data`) -/

/-- A tabular dataset: its column names and its rows as cell maps.
Categorical cells are represented by their encoded codes; the
order-preserving `LabelEncoder.fit_transform` step is not inspected by any
verified property. -/
structure DataFrame where
  columns : List String
  rows : List (String → ℚ)

/-- The result of `TransferPredictor.prepare_data`. -/
structure PreparedData where
  feature_names : List String
  X : List (List ℚ)
  y : Option (List ℚ)

/-- Embeds `prepare_data` (lines 38-66): keep the fixed candidate columns that
exist in the data, in the fixed relative order; extract the label column
when present. -/
def prepare_data (df : DataFrame) : PreparedData :=
  let fn := allFeatureCols.filter fun c => decide (c ∈ df.columns)
  { feature_names := fn
    X := df.rows.map fun r => fn.map r
    y := if "transfer_happened" ∈ df.columns then
           some (df.rows.map fun r => r "transfer_happened")
         else none }

/-! ### Lemmas about the feature pipeline -/

lemma seqFeatures_spec (P : Predictor) (row : InputRow) :
    ∀ (fs : List String) (v : List ℚ), seqFeatures P row fs = some v →
      v.length = fs.length ∧ ∀ i : ℕ, v[i]? = fs[i]?.bind (featureOf P row) := by
  intro fs
  induction fs with
  | nil =>
    intro v h
    simp only [seqFeatures, Option.some.injEq] at h
    subst h
    simp
  | cons f fs ih =>
    intro v h
    simp only [seqFeatures] at h
    cases hf : featureOf P row f with
    | none =>
      cases hs : seqFeatures P row fs <;> rw [hf, hs] at h <;> cases h
    | some x =>
      cases hs : seqFeatures P row fs with
      | none => rw [hf, hs] at h; cases h
      | some xs =>
        rw [hf, hs] at h
        cases h
        obtain ⟨ih1, ih2⟩ := ih xs hs
        constructor
        · simp [ih1]
        · intro i
          cases i with
          | zero => simp [hf]
          | succ n => simpa using ih2 n

lemma seqFeatures_isSome (P : Predictor) (row : InputRow) :
    ∀ fs : List String, (∀ f ∈ fs, (featureOf P row f).isSome = true) →
      ∃ v, seqFeatures P row fs = some v := by
  intro fs
  induction fs with
  | nil => exact fun _ => ⟨[], rfl⟩
  | cons f fs ih =>
    intro h
    obtain ⟨x, hx⟩ := Option.isSome_iff_exists.mp (h f (by simp))
    obtain ⟨xs, hxs⟩ := ih fun g hg => h g (by simp [hg])
    exact ⟨x :: xs, by simp [seqFeatures, hx, hxs]⟩

lemma featureOf_isSome (P : Predictor) (row : InputRow) (f : String)
    (hf : f ∈ allFeatureCols)
    (hpos : f = "position" → (P.label_encoders.lookup "position").isSome = true) :
    (featureOf P row f).isSome = true := by
  simp only [allFeatureCols, List.mem_cons, List.not_mem_nil, or_false] at hf
  rcases hf with rfl | rfl | rfl | rfl | rfl | rfl | rfl | rfl | rfl | rfl | rfl | rfl
  · rfl
  · rfl
  · rfl
  · rfl
  · rfl
  · obtain ⟨cs, hl⟩ := Option.isSome_iff_exists.mp (hpos rfl)
    show (encodePosition P.label_encoders row.position).isSome = true
    simp only [encodePosition]
    rw [hl]
    rfl
  · rfl
  · rfl
  · rfl
  · rfl
  · rfl
  · rfl

lemma predict_isOk (P : Predictor) (pd : PlayerDict) (club : String) (hwf : WellFormed P) :
    (predict_transfer_probability P pd club).isOk = true := by
  obtain ⟨h1, h2, h3⟩ := hwf
  obtain ⟨v, hv⟩ := seqFeatures_isSome P (input_data pd (resolveClub P club)) P.feature_names
    fun f hf => featureOf_isSome P _ f (h1 f hf) fun he => h2 (he ▸ hf)
  have hlen := (seqFeatures_spec P _ P.feature_names v hv).1
  have heq : P.scaler.length = v.length := h3.trans hlen.symm
  simp [predict_transfer_probability, featuresVec, hv, scalerTransform, heq, Except.isOk,
    Except.toBool]

/-! ### Helper lemmas about lookups -/

lemma classIndex_eq_none : ∀ (cs : List String) (pos : String), pos ∉ cs →
    classIndex cs pos = none := by
  intro cs
  induction cs with
  | nil => intro pos _; rfl
  | cons c t ih =>
    intro pos h
    simp only [List.mem_cons, not_or] at h
    obtain ⟨h1, h2⟩ := h
    have hc : (c == pos) = false := beq_eq_false_iff_ne.mpr (Ne.symm h1)
    simp [classIndex, hc, ih pos h2]

lemma lookup_eq_none_of_not_mem {β : Type} :
    ∀ {l : List (String × β)} {c : String}, c ∉ l.map Prod.fst → l.lookup c = none := by
  intro l
  induction l with
  | nil => intro c _; rfl
  | cons p t ih =>
    intro c h
    simp only [List.map_cons, List.mem_cons, not_or] at h
    obtain ⟨h1, h2⟩ := h
    have hk : (c == p.1) = false := beq_eq_false_iff_ne.mpr h1
    cases p with
    | mk k v => simpa [List.lookup, hk] using ih h2

/-! ### Claims about the single-prediction path -/

/-- C3: the feature names recorded at fit time are exactly the fixed
candidate columns present in the data, in the fixed relative order, and
every inference-time feature vector lists its cells in exactly that
recorded order with matching length. -/
theorem C3_feature_order (df : DataFrame) (P : Predictor) (row : InputRow) (v : List ℚ)
    (hP : P.feature_names = (prepare_data df).feature_names)
    (hv : featuresVec P row = some v) :
    (prepare_data df).feature_names.Sublist allFeatureCols
    ∧ (∀ c, c ∈ (prepare_data df).feature_names ↔ c ∈ allFeatureCols ∧ c ∈ df.columns)
    ∧ v.length = (prepare_data df).feature_names.length
    ∧ ∀ i : ℕ, v[i]? = ((prepare_data df).feature_names[i]?).bind (featureOf P row) := by
  obtain ⟨hl, hg⟩ := seqFeatures_spec P row P.feature_names v hv
  rw [hP] at hl hg
  refine ⟨?_, fun c => ?_, hl, hg⟩
  · simp only [prepare_data]
    exact List.filter_sublist _
  · simp [prepare_data]

/-- The `encoder.transform` state-passing step: reads the fitted encoder
state, never refits it. -/
def encoderTransformStep (encs : List (String × List String)) (pos : String) :
    (List (String × List String)) × Option ℚ := (encs, encodePosition encs pos)

/-- The `scaler.transform` state-passing step: applies the stored
statistics, never recomputes them. -/
def scalerTransformStep (sc : List (ℚ × ℚ)) (v : List ℚ) :
    (List (ℚ × ℚ)) × Option (List ℚ) := (sc, scalerTransform sc v)

/-- The `model.predict_proba` and `model.predict` state-passing step. -/
def modelPredictStep (m : List ℚ → ℚ × ℕ) (v : List ℚ) :
    (List ℚ → ℚ × ℕ) × (ℚ × ℕ) := (m, m v)

/-- State-passing form of `predict_transfer_probability`: every fitted
component is threaded through the step that uses it and returned in the
final state, so the final state records exactly the mutations inference
performs. -/
def predictST (P : Predictor) (pd : PlayerDict) (club : String) :
    Predictor × Except String MTPred :=
  let ci := resolveClub P club
  let row := input_data pd ci
  let encPair := encoderTransformStep P.label_encoders row.position
  match featuresVec P row with
  | none => ({ P with label_encoders := encPair.1 }, .error "invalid feature column")
  | some v =>
    let scPair := scalerTransformStep P.scaler v
    match scPair.2 with
    | none => ({ P with label_encoders := encPair.1, scaler := scPair.1 },
               .error "scaler dimension mismatch")
    | some vs =>
      let mPair := modelPredictStep P.model vs
      ({ model := mPair.1, scaler := scPair.1, label_encoders := encPair.1,
         feature_names := P.feature_names, clubs := P.clubs },
       .ok { transfer_probability := mPair.2.1, prediction := mPair.2.2,
             confidence := if 0.7 < mPair.2.1 ∨ mPair.2.1 < 0.3 then "High" else "Medium" })

/-- C4: a single prediction leaves the loaded fitted state unchanged: the
state-passing form of `predict_transfer_probability` returns the predictor
it was given (classifier, scaler statistics, label encoders, feature
names and club registry all identical) and the same result. -/
theorem C4_prediction_pure (P : Predictor) (pd : PlayerDict) (club : String) :
    (predictST P pd club).1 = P
    ∧ (predictST P pd club).2 = predict_transfer_probability P pd club := by
  constructor
  · simp only [predictST, encoderTransformStep, scalerTransformStep, modelPredictStep]
    split
    · rfl
    · split
      · rfl
      · rfl
  · simp only [predictST, predict_transfer_probability, encoderTransformStep,
      scalerTransformStep, modelPredictStep]
    split
    · rfl
    · split
      · rfl
      · rfl

lemma ite_high_medium (c : Prop) [Decidable c] :
    ((if c then "High" else "Medium") = "High" ↔ c)
    ∧ ((if c then "High" else "Medium") = "Medium" ↔ ¬c)
    ∧ (if c then "High" else "Medium") ≠ "Low" := by
  by_cases h : c <;> simp [h]

/-- C5: every successful single prediction carries a probability in
`[0,1]` (given the classifier's probability contract), its confidence is
`High` exactly when the probability exceeds 0.7 or is below 0.3 and
`Medium` otherwise, and the bucket `Low` is never produced. -/
theorem C5_confidence_buckets (P : Predictor) (pd : PlayerDict) (club : String)
    (hm : ∀ v, 0 ≤ (P.model v).1 ∧ (P.model v).1 ≤ 1) :
    ∀ r : MTPred, predict_transfer_probability P pd club = .ok r →
      (0 ≤ r.transfer_probability ∧ r.transfer_probability ≤ 1)
      ∧ (r.confidence = "High" ↔ (0.7 < r.transfer_probability ∨ r.transfer_probability < 0.3))
      ∧ (r.confidence = "Medium" ↔ ¬(0.7 < r.transfer_probability ∨ r.transfer_probability < 0.3))
      ∧ r.confidence ≠ "Low" := by
  intro r h
  simp only [predict_transfer_probability] at h
  split at h
  · cases h
  · split at h
    · cases h
    · cases h
      exact ⟨hm _, (ite_high_medium _).1, (ite_high_medium _).2.1, (ite_high_medium _).2.2⟩

/-- C6: an inference-time `position` value unseen by the fitted encoder
does not raise: it is encoded with the fixed fallback code 0 and the
prediction still completes. -/
theorem C6_unseen_category (P : Predictor) (pd : PlayerDict) (club : String) (cs : List String)
    (hcs : P.label_encoders.lookup "position" = some cs)
    (hun : (input_data pd (resolveClub P club)).position ∉ cs)
    (hwf : WellFormed P) :
    encodePosition P.label_encoders (input_data pd (resolveClub P club)).position = some 0
    ∧ (predict_transfer_probability P pd club).isOk = true := by
  refine ⟨?_, predict_isOk P pd club hwf⟩
  simp [encodePosition, hcs, classIndex_eq_none cs _ hun]

/-- C9: a club name outside the six-entry registry does not fail a single
prediction: it resolves to the generic fallback profile (budget 100M, no
continental competition, league position 10) and a normal result is
returned. -/
theorem C9_unknown_club (P : Predictor) (pd : PlayerDict) (club : String)
    (hP : P.clubs = big6_clubs)
    (hclub : club ∉ big6_clubs.map Prod.fst)
    (hwf : WellFormed P) :
    resolveClub P club = fallbackClubInfo
    ∧ (predict_transfer_probability P pd club).isOk = true := by
  refine ⟨?_, predict_isOk P pd club hwf⟩
  rw [resolveClub, hP, lookup_eq_none_of_not_mem hclub]
  rfl

/-- The `player_data` dict with every key absent. -/
def emptyPlayerDict : PlayerDict := {}

/-- The request-boundary model `PlayerData` of `main.py` (lines 60-70)
with its own defaults. -/
structure PlayerData where
  name : String := "Unknown Player"
  age : ℚ
  position : String
  market_value : ℚ
  goals : ℚ := 0
  assists : ℚ := 0
  minutes_played : ℚ := 1800
  contract_years_left : ℚ := 2
  player_wants_move : ℚ := 0
  position_need : ℚ := 1

/-- A `PlayerData` record carrying only the boundary defaults (the
required fields are irrelevant to the comparison). -/
def boundaryDefaults : PlayerData := { age := 0, position := "", market_value := 0 }

/-- C10: absent player fields are filled with the core function's own
defaults (age 25, value 20M, goals 5, assists 3, minutes 2000,
Midfielder, contract 2, no move wish, need 1), which differ from the
request-boundary defaults in goals, assists and minutes; predictions
agree whenever the default-filled inputs agree. -/
theorem C10_default_filling (P : Predictor) (pd1 pd2 : PlayerDict) (club : String)
    (h : ∀ ci : ClubInfo, input_data pd1 ci = input_data pd2 ci) :
    (∀ ci : ClubInfo, input_data emptyPlayerDict ci =
      { player_age := 25, market_value := 20000000, goals := 5, assists := 3,
        minutes_played := 2000, position := "Midfielder", club_budget := ci.budget,
        club_league_position := ci.league_pos, club_champions_league := ci.cl_qualified,
        contract_years_left := 2, player_wants_move := 0, position_need := 1 })
    ∧ ((input_data emptyPlayerDict fallbackClubInfo).goals ≠ boundaryDefaults.goals
       ∧ (input_data emptyPlayerDict fallbackClubInfo).assists ≠ boundaryDefaults.assists
       ∧ (input_data emptyPlayerDict fallbackClubInfo).minutes_played
           ≠ boundaryDefaults.minutes_played)
    ∧ predict_transfer_probability P pd1 club = predict_transfer_probability P pd2 club := by
  refine ⟨fun ci => rfl, ⟨by norm_num [input_data, boundaryDefaults, emptyPlayerDict],
    by norm_num [input_data, boundaryDefaults, emptyPlayerDict],
    by norm_num [input_data, boundaryDefaults, emptyPlayerDict]⟩, ?_⟩
  simp only [predict_transfer_probability, h (resolveClub P club)]

/-! ### Concrete probe artifacts for the witnesses -/

/-- A concrete well-formed predictor used to instantiate the theorems. -/
def probePredictor : Predictor where
  model := fun _ => (1/2, 1)
  scaler := List.replicate 12 (0, 1)
  label_encoders := [("position", ["Attacker", "Defender", "Goalkeeper", "Midfielder"])]
  feature_names := allFeatureCols
  clubs := big6_clubs

/-- The `player_data` dict explicitly carrying the core defaults. -/
def filledDefaults : PlayerDict where
  age := some 25
  market_value := some 20000000
  goals := some 5
  assists := some 3
  minutes_played := some 2000
  position := some "Midfielder"
  contract_years_left := some 2
  player_wants_move := some 0
  position_need := some 1

/-- A dataset header whose columns come in a different order and carry the
label column. -/
def probeDF : DataFrame := ⟨["market_value", "player_age", "transfer_happened"], []⟩

/-- A predictor fitted on `probeDF`'s feature subset. -/
def probeP3 : Predictor :=
  { probePredictor with feature_names := ["player_age", "market_value"],
                        scaler := [(0, 1), (0, 1)] }

/-- The default-filled inference row for the fallback club. -/
def probeRow : InputRow := input_data emptyPlayerDict fallbackClubInfo

theorem C3_feature_order_witness :
    (prepare_data probeDF).feature_names.Sublist allFeatureCols
    ∧ (∀ c, c ∈ (prepare_data probeDF).feature_names ↔
        c ∈ allFeatureCols ∧ c ∈ probeDF.columns)
    ∧ ([25, 20000000] : List ℚ).length = (prepare_data probeDF).feature_names.length
    ∧ ∀ i : ℕ, (([25, 20000000] : List ℚ))[i]? =
        ((prepare_data probeDF).feature_names[i]?).bind (featureOf probeP3 probeRow) :=
  C3_feature_order probeDF probeP3 probeRow [25, 20000000] (by rfl) (by rfl)

/-- The probe record produced by `probePredictor` on the default player. -/
def probeOk : MTPred := ⟨1/2, 1, "Medium"⟩

lemma predict_eval_of (P : Predictor) (pd : PlayerDict) (club : String) (v : List ℚ)
    (hv : featuresVec P (input_data pd (resolveClub P club)) = some v)
    (hlen : P.scaler.length = v.length) :
    predict_transfer_probability P pd club =
      .ok { transfer_probability :=
              (P.model (List.zipWith (fun p x => (x - p.1) / p.2) P.scaler v)).1
            prediction := (P.model (List.zipWith (fun p x => (x - p.1) / p.2) P.scaler v)).2
            confidence :=
              if 0.7 < (P.model (List.zipWith (fun p x => (x - p.1) / p.2) P.scaler v)).1
                 ∨ (P.model (List.zipWith (fun p x => (x - p.1) / p.2) P.scaler v)).1 < 0.3
              then "High" else "Medium" } := by
  have hv' : seqFeatures P (input_data pd (resolveClub P club)) P.feature_names = some v := hv
  simp [predict_transfer_probability, featuresVec, hv', scalerTransform, hlen]

/-- The feature vector assembled for the default player at Arsenal. -/
def probeVec : List ℚ := [25, 20000000, 5, 3, 2000, 3, 150000000, 2, 1, 2, 0, 1]

theorem C5_confidence_buckets_witness :
    (0 ≤ probeOk.transfer_probability ∧ probeOk.transfer_probability ≤ 1)
    ∧ (probeOk.confidence = "High" ↔
        (0.7 < probeOk.transfer_probability ∨ probeOk.transfer_probability < 0.3))
    ∧ (probeOk.confidence = "Medium" ↔
        ¬(0.7 < probeOk.transfer_probability ∨ probeOk.transfer_probability < 0.3))
    ∧ probeOk.confidence ≠ "Low" :=
  C5_confidence_buckets probePredictor emptyPlayerDict "Arsenal"
    (fun _ => ⟨by norm_num [probePredictor], by norm_num [probePredictor]⟩) probeOk (by
      rw [predict_eval_of probePredictor emptyPlayerDict "Arsenal" probeVec rfl rfl]
      norm_num [probePredictor, probeOk])

/-- A player dict with a position label the encoder never saw. -/
def strikerDict : PlayerDict := { position := some "Striker" }

theorem C6_unseen_category_witness :
    encodePosition probePredictor.label_encoders
      (input_data strikerDict (resolveClub probePredictor "Arsenal")).position = some 0
    ∧ (predict_transfer_probability probePredictor strikerDict "Arsenal").isOk = true :=
  C6_unseen_category probePredictor strikerDict "Arsenal"
    ["Attacker", "Defender", "Goalkeeper", "Midfielder"] rfl (by decide)
    ⟨by decide, fun _ => rfl, rfl⟩

theorem C9_unknown_club_witness :
    resolveClub probePredictor "Unknown FC" = fallbackClubInfo
    ∧ (predict_transfer_probability probePredictor emptyPlayerDict "Unknown FC").isOk = true :=
  C9_unknown_club probePredictor emptyPlayerDict "Unknown FC" rfl (by decide)
    ⟨by decide, fun _ => rfl, rfl⟩

theorem C10_default_filling_witness :
    (∀ ci : ClubInfo, input_data emptyPlayerDict ci =
      { player_age := 25, market_value := 20000000, goals := 5, assists := 3,
        minutes_played := 2000, position := "Midfielder", club_budget := ci.budget,
        club_league_position := ci.league_pos, club_champions_league := ci.cl_qualified,
        contract_years_left := 2, player_wants_move := 0, position_need := 1 })
    ∧ ((input_data emptyPlayerDict fallbackClubInfo).goals ≠ boundaryDefaults.goals
       ∧ (input_data emptyPlayerDict fallbackClubInfo).assists ≠ boundaryDefaults.assists
       ∧ (input_data emptyPlayerDict fallbackClubInfo).minutes_played
           ≠ boundaryDefaults.minutes_played)
    ∧ predict_transfer_probability probePredictor emptyPlayerDict "Arsenal"
        = predict_transfer_probability probePredictor filledDefaults "Arsenal" :=
  C10_default_filling probePredictor emptyPlayerDict filledDefaults "Arsenal" (fun _ => rfl)

/-! ### Training (`train`) -/

/-- Model of sklearn `train_test_split(X, y, test_size=0.2, stratify=y)`
at its documented contract: `n_test = ceil(0.2 n)` (exact arithmetic), and
the split raises when a side would be empty, when some class present in
`y` has fewer than 2 members, or when a side is smaller than the number of
classes.  The selected indices are abstracted to a take/drop split: the
seeded shuffle is library-internal and no verified property inspects
which rows land on which side. -/
def train_test_split (X : List (List ℚ)) (y : List ℚ) :
    Except String (List (List ℚ) × List (List ℚ) × List ℚ × List ℚ) :=
  let n := y.length
  let nTest := (n + 4) / 5
  let nTrain := n - nTest
  if nTest = 0 ∨ nTrain = 0 then
    .error "the resulting train or test set will be empty"
  else if y.dedup.any fun k => decide ((y.countP fun x => decide (x = k)) < 2) then
    .error "the least populated class in y has only 1 member"
  else if nTrain < y.dedup.length ∨ nTest < y.dedup.length then
    .error "the train or test size is smaller than the number of classes"
  else .ok (X.take nTrain, X.drop nTrain, y.take nTrain, y.drop nTrain)

/-- Embeds `StandardScaler.fit` on the training split: per-column mean and
standard deviation.  The square root is the abstract parameter `sqrtQ`
(the statistics' values are not inspected by any verified property). -/
def scalerFit (sqrtQ : ℚ → ℚ) (X : List (List ℚ)) : List (ℚ × ℚ) :=
  X.transpose.map fun col =>
    let m := col.sum / (col.length : ℚ)
    (m, sqrtQ (((col.map fun x => (x - m) ^ 2).sum) / (col.length : ℚ)))

/-- The `scaler.transform` application during training. -/
def scalerApply (sc : List (ℚ × ℚ)) (v : List ℚ) : List ℚ :=
  List.zipWith (fun p x => (x - p.1) / p.2) sc v

/-- Embeds `accuracy_score`. -/
def accuracy (yTrue yPred : List ℚ) : ℚ :=
  (((yTrue.zip yPred).countP fun p => decide (p.1 = p.2) : ℕ) : ℚ) / (yTrue.length : ℚ)

/-- Embeds `TransferPredictor.train` (lines 68-106): prepare the data, raise if
the label column is absent, stratified 80/20 split, scale with statistics
fitted on the training split only, fit the classifier and score the
held-out split.  The random-forest fit-and-predict pair is the abstract
parameter `clf`. -/
def train (clf : List (List ℚ) → List ℚ → List (List ℚ) → List ℚ) (sqrtQ : ℚ → ℚ)
    (df : DataFrame) : Except String ℚ :=
  let p := prepare_data df
  match p.y with
  | none => .error "No target variable transfer_happened found"
  | some y =>
    match train_test_split p.X y with
    | .error e => .error e
    | .ok (xTr, xTe, yTr, yTe) =>
      let sc := scalerFit sqrtQ xTr
      let xTrS := xTr.map (scalerApply sc)
      let xTeS := xTe.map (scalerApply sc)
      let yPred := clf xTrS yTr xTeS
      .ok (accuracy yTe yPred)

/-- The success condition of the stratified split, spelled logically. -/
def stratifyOK (y : List ℚ) : Prop :=
  ¬((y.length + 4) / 5 = 0 ∨ y.length - (y.length + 4) / 5 = 0)
  ∧ (∀ k ∈ y.dedup, 2 ≤ y.countP fun x => decide (x = k))
  ∧ ¬(y.length - (y.length + 4) / 5 < y.dedup.length
      ∨ (y.length + 4) / 5 < y.dedup.length)

lemma split_isOk_iff (X : List (List ℚ)) (y : List ℚ) :
    (train_test_split X y).isOk = true ↔ stratifyOK y := by
  simp only [train_test_split, stratifyOK]
  split_ifs with h1 h2 h3
  · simp [Except.isOk, Except.toBool, h1]
  · simp only [Except.isOk, Except.toBool, Bool.false_eq_true, false_iff]
    rintro ⟨-, hall, -⟩
    obtain ⟨k, hk, hdec⟩ := List.any_eq_true.mp h2
    have hlt := of_decide_eq_true hdec
    have hge := hall k hk
    omega
  · simp only [Except.isOk, Except.toBool, Bool.false_eq_true, false_iff]
    rintro ⟨-, -, hno⟩
    exact hno h3
  · simp only [Except.isOk, Except.toBool, true_iff]
    refine ⟨h1, fun k hk => ?_, h3⟩
    by_contra hcon
    exact h2 (List.any_eq_true.mpr ⟨k, hk, decide_eq_true (by omega)⟩)

/-- C8 (amended): `train` errors exactly when the label column
`transfer_happened` is absent or the stratified split's preconditions
fail — some present class has fewer than 2 members, or a split side is
empty or smaller than the number of classes.  Having fewer than 2
distinct classes is neither necessary nor sufficient for an error. -/
theorem C8_train_error_iff (clf : List (List ℚ) → List ℚ → List (List ℚ) → List ℚ)
    (sqrtQ : ℚ → ℚ) (df : DataFrame) :
    (train clf sqrtQ df).isOk = true ↔
      ("transfer_happened" ∈ df.columns
        ∧ stratifyOK (df.rows.map fun r => r "transfer_happened")) := by
  by_cases hc : "transfer_happened" ∈ df.columns
  · have hy : (prepare_data df).y = some (df.rows.map fun r => r "transfer_happened") := by
      simp [prepare_data, hc]
    simp only [train, hy]
    cases hsp : train_test_split (prepare_data df).X
        (df.rows.map fun r => r "transfer_happened") with
    | error e =>
      have hko : ¬ stratifyOK (df.rows.map fun r => r "transfer_happened") := by
        rw [← split_isOk_iff (prepare_data df).X]
        simp [hsp, Except.isOk, Except.toBool]
      simp [Except.isOk, Except.toBool, hc, hko]
    | ok t =>
      obtain ⟨xTr, xTe, yTr, yTe⟩ := t
      have hok : stratifyOK (df.rows.map fun r => r "transfer_happened") := by
        rw [← split_isOk_iff (prepare_data df).X]
        simp [hsp, Except.isOk, Except.toBool]
      simp [Except.isOk, Except.toBool, hc, hok]
  · have hy : (prepare_data df).y = none := by simp [prepare_data, hc]
    simp [train, hy, Except.isOk, Except.toBool, hc]

/-- A 5-row frame with the label present and two classes, one of which is
a singleton. -/
def df41 : DataFrame where
  columns := ["player_age", "transfer_happened"]
  rows := [fun c => if c = "transfer_happened" then 0 else 20,
           fun c => if c = "transfer_happened" then 0 else 21,
           fun c => if c = "transfer_happened" then 0 else 22,
           fun c => if c = "transfer_happened" then 0 else 23,
           fun c => if c = "transfer_happened" then 1 else 24]

/-- A 5-row frame with the label present and a single class. -/
def df40 : DataFrame where
  columns := ["player_age", "transfer_happened"]
  rows := [fun c => if c = "transfer_happened" then 0 else 20,
           fun c => if c = "transfer_happened" then 0 else 21,
           fun c => if c = "transfer_happened" then 0 else 22,
           fun c => if c = "transfer_happened" then 0 else 23,
           fun c => if c = "transfer_happened" then 0 else 24]

/-- A trivial classifier instance for concrete runs. -/
def clf0 : List (List ℚ) → List ℚ → List (List ℚ) → List ℚ :=
  fun _ _ xTe => xTe.map fun _ => 0

/-- C8 counterexample: `df41` has the label column and 2 distinct classes,
so the claim's iff says training must succeed, yet `train` errors (the
singleton class violates the stratified split's minimum);
conversely `df40` has only 1 distinct class, so the claim says training
must error, yet `train` returns an accuracy. -/
theorem C8_counterexample :
    "transfer_happened" ∈ df41.columns
    ∧ (df41.rows.map fun r => r "transfer_happened").dedup.length = 2
    ∧ (train clf0 id df41).isOk = false
    ∧ "transfer_happened" ∈ df40.columns
    ∧ (df40.rows.map fun r => r "transfer_happened").dedup.length = 1
    ∧ (train clf0 id df40).isOk = true := by
  refine ⟨by decide, by decide, ?_, by decide, by decide, ?_⟩
  · decide
  · decide

/-! ### Multi-club comparison (`main.py`, `predict_multi_club`) -/

/-- A per-club entry of the multi-club response.  Presentation-only
fields (`player_name`, `reasoning`, `market_fit`, `position_priority`)
are omitted; no verified property mentions them. -/
structure Resp where
  target_club : String
  transfer_probability : ℚ
  prediction : String
  confidence : String
deriving DecidableEq

/-- The per-club response built from a prediction result
(`main.py` lines 281-290). -/
def mcResp (club : String) (r : MTPred) : Resp where
  target_club := club
  transfer_probability := r.transfer_probability
  prediction := if r.prediction = 1 then "Likely" else "Unlikely"
  confidence := r.confidence

/-- The loop state of `predict_multi_club`: collected predictions and the
running best probability/club (lines 245-247). -/
structure MCAcc where
  predictions : List Resp
  best_probability : ℚ
  best_club : String

/-- One iteration of the club loop (lines 249-296): unknown clubs are
skipped, a failed prediction is skipped by the `except` handler, the best
club is updated on a strictly larger probability, and the response is
appended. -/
def mcStep (P : Predictor) (pd : PlayerDict) (acc : MCAcc) (club : String) : MCAcc :=
  if (P.clubs.lookup club).isSome then
    match predict_transfer_probability P pd club with
    | .error _ => acc
    | .ok r =>
      let acc1 := if acc.best_probability < r.transfer_probability then
          { acc with best_probability := r.transfer_probability, best_club := club }
        else acc
      { acc1 with predictions := acc1.predictions ++ [mcResp club r] }
  else acc

/-- Descending order on probabilities, the sort key of
`predictions.sort(key=lambda x: x.transfer_probability, reverse=True)`. -/
def respGE (a b : Resp) : Prop := b.transfer_probability ≤ a.transfer_probability

instance : DecidableRel respGE := fun a b =>
  inferInstanceAs (Decidable (b.transfer_probability ≤ a.transfer_probability))

instance : IsTotal Resp respGE := ⟨fun a b => le_total b.transfer_probability a.transfer_probability⟩

instance : IsTrans Resp respGE := ⟨fun _ _ _ hab hbc => le_trans hbc hab⟩

/-- The multi-club response (`MultiClubResponse`). -/
structure MultiResp where
  predictions : List Resp
  best_fit : String
  summary : String

/-- Embeds `predict_multi_club` (lines 239-314).  Python's `list.sort` is a
stable sort, realised here by insertion sort under the total preorder
`respGE` (any two stable sorts of the same list under the same key
agree); the summary f-string is abstracted to its qualitative bucket. -/
def predict_multi_club (P : Predictor) (pd : PlayerDict) (clubs : List String) : MultiResp :=
  let acc := clubs.foldl (mcStep P pd) ⟨[], 0, ""⟩
  { predictions := List.insertionSort respGE acc.predictions
    best_fit := acc.best_club
    summary := if 0.7 < acc.best_probability then "excellent"
               else if 0.5 < acc.best_probability then "good" else "limited" }

/-- The in-input-order list of per-club responses over the clubs that
resolve in the registry and whose prediction succeeds. -/
def resolvedResponses (P : Predictor) (pd : PlayerDict) (clubs : List String) : List Resp :=
  clubs.filterMap fun c =>
    if (P.clubs.lookup c).isSome then
      (predict_transfer_probability P pd c).toOption.map (mcResp c)
    else none

/-- The best-tracking update of the loop (lines 276-278). -/
def bestStep (s : ℚ × String) (e : Resp) : ℚ × String :=
  if s.1 < e.transfer_probability then (e.transfer_probability, e.target_club) else s

/-- The best-tracking fold over a response list. -/
def bestFold (l : List Resp) (s : ℚ × String) : ℚ × String := l.foldl bestStep s

/-- The value carried by a successful prediction. -/
def okValue : Except String MTPred → MTPred
  | .ok r => r
  | .error _ => ⟨0, 0, "Medium"⟩

lemma mcFoldl_spec (P : Predictor) (pd : PlayerDict) :
    ∀ (clubs : List String) (acc : MCAcc),
      clubs.foldl (mcStep P pd) acc =
        ⟨acc.predictions ++ resolvedResponses P pd clubs,
         (bestFold (resolvedResponses P pd clubs) (acc.best_probability, acc.best_club)).1,
         (bestFold (resolvedResponses P pd clubs) (acc.best_probability, acc.best_club)).2⟩ := by
  intro clubs
  induction clubs with
  | nil =>
    intro acc
    simp [resolvedResponses, bestFold]
  | cons c cs ih =>
    intro acc
    simp only [List.foldl_cons]
    by_cases hc : (P.clubs.lookup c).isSome
    · cases hp : predict_transfer_probability P pd c with
      | error e =>
        have hstep : mcStep P pd acc c = acc := by simp [mcStep, hc, hp]
        have hrr : resolvedResponses P pd (c :: cs) = resolvedResponses P pd cs := by
          simp [resolvedResponses, List.filterMap_cons, hc, hp, Except.toOption]
        rw [hstep, ih acc, hrr]
      | ok r =>
        have hstep : mcStep P pd acc c =
            ⟨acc.predictions ++ [mcResp c r],
             (bestStep (acc.best_probability, acc.best_club) (mcResp c r)).1,
             (bestStep (acc.best_probability, acc.best_club) (mcResp c r)).2⟩ := by
          simp only [mcStep, hc, if_true, hp, bestStep, mcResp]
          by_cases hlt : acc.best_probability < r.transfer_probability <;> simp [hlt]
        have hrr : resolvedResponses P pd (c :: cs)
            = mcResp c r :: resolvedResponses P pd cs := by
          simp [resolvedResponses, List.filterMap_cons, hc, hp, Except.toOption]
        rw [hstep, ih, hrr]
        simp [bestFold]
    · have hstep : mcStep P pd acc c = acc := by simp [mcStep, hc]
      have hrr : resolvedResponses P pd (c :: cs) = resolvedResponses P pd cs := by
        simp [resolvedResponses, List.filterMap_cons, hc]
      rw [hstep, ih acc, hrr]

lemma orderedInsert_decomp (a : Resp) (l : List Resp) :
    ∃ l₁ l₂, List.orderedInsert respGE a l = l₁ ++ a :: l₂ ∧ l = l₁ ++ l₂
      ∧ ∀ b ∈ l₁, a.transfer_probability < b.transfer_probability := by
  induction l with
  | nil => exact ⟨[], [], rfl, rfl, by simp⟩
  | cons b t ih =>
    by_cases h : respGE a b
    · exact ⟨[], b :: t, by simp [List.orderedInsert, h], rfl, by simp⟩
    · obtain ⟨l₁, l₂, h1, h2, h3⟩ := ih
      refine ⟨b :: l₁, l₂, ?_, by simp [h2], ?_⟩
      · simp [List.orderedInsert, h, h1]
      · intro x hx
        rcases List.mem_cons.mp hx with rfl | hx
        · exact not_le.mp h
        · exact h3 x hx

lemma sort_filter_stable (q : ℚ) :
    ∀ l : List Resp,
      (List.insertionSort respGE l).filter (fun e => decide (e.transfer_probability = q))
        = l.filter fun e => decide (e.transfer_probability = q) := by
  intro l
  induction l with
  | nil => rfl
  | cons a t ih =>
    simp only [List.insertionSort]
    obtain ⟨l₁, l₂, h1, h2, h3⟩ := orderedInsert_decomp a (List.insertionSort respGE t)
    rw [h1, List.filter_append]
    by_cases ha : a.transfer_probability = q
    · have hl₁ : l₁.filter (fun e => decide (e.transfer_probability = q)) = [] := by
        refine List.filter_eq_nil_iff.mpr fun b hb => ?_
        have hb' := h3 b hb
        simp only [decide_eq_true_eq]
        intro hq
        rw [hq, ← ha] at hb'
        exact lt_irrefl _ hb'
      have hl : l₂.filter (fun e => decide (e.transfer_probability = q))
          = t.filter fun e => decide (e.transfer_probability = q) := by
        rw [← ih, h2, List.filter_append, hl₁, List.nil_append]
      rw [hl₁, List.nil_append, List.filter_cons, List.filter_cons, hl]
    · have hpa : ¬(decide (a.transfer_probability = q) = true) := by simpa using ha
      rw [List.filter_cons, List.filter_cons, if_neg hpa, if_neg hpa, ← List.filter_append,
        ← h2, ih]

lemma sort_head_firstmax :
    ∀ (l : List Resp) (h : Resp) (t' : List Resp),
      List.insertionSort respGE l = h :: t' →
      ∃ l₁ l₂, l = l₁ ++ h :: l₂
        ∧ (∀ e ∈ l₁, e.transfer_probability < h.transfer_probability)
        ∧ ∀ e ∈ l, e.transfer_probability ≤ h.transfer_probability := by
  intro l
  induction l with
  | nil => intro h t' hE; cases hE
  | cons a t ih =>
    intro h t' hE
    simp only [List.insertionSort] at hE
    cases hS : List.insertionSort respGE t with
    | nil =>
      have ht : t = [] := by
        have hperm := List.perm_insertionSort respGE t
        rw [hS] at hperm
        exact (hperm.symm).eq_nil
      rw [hS] at hE
      simp only [List.orderedInsert_nil] at hE
      injection hE with hE1 hE2
      subst hE1
      subst ht
      exact ⟨[], [], rfl, by simp, by simp⟩
    | cons h0 t0 =>
      rw [hS] at hE
      obtain ⟨l₁, l₂, hd, hlt, hmax⟩ := ih h0 t0 hS
      by_cases hc : respGE a h0
      · rw [List.orderedInsert, if_pos hc] at hE
        injection hE with hE1 hE2
        subst hE1
        refine ⟨[], t, rfl, by simp, ?_⟩
        intro e he
        rcases List.mem_cons.mp he with rfl | he
        · exact le_refl _
        · exact le_trans (hmax e he) hc
      · rw [List.orderedInsert, if_neg hc] at hE
        injection hE with hE1 hE2
        subst hE1
        refine ⟨a :: l₁, l₂, by rw [hd, List.cons_append], ?_, ?_⟩
        · intro e he
          rcases List.mem_cons.mp he with rfl | he
          · exact not_le.mp hc
          · exact hlt e he
        · intro e he
          rcases List.mem_cons.mp he with rfl | he
          · exact le_of_lt (not_le.mp hc)
          · exact hmax e he

lemma bestFold_const :
    ∀ (l : List Resp) (s : ℚ × String),
      (∀ e ∈ l, e.transfer_probability ≤ s.1) → bestFold l s = s := by
  intro l
  induction l with
  | nil => intro s _; rfl
  | cons e t ih =>
    intro s hle
    have hstep : bestStep s e = s := by
      simp [bestStep, not_lt.mpr (hle e (by simp))]
    simp only [bestFold, List.foldl_cons, hstep]
    exact ih s fun x hx => hle x (List.mem_cons_of_mem _ hx)

lemma bestFold_hit :
    ∀ (l₁ : List Resp) (h : Resp) (l₂ : List Resp) (s : ℚ × String),
      (∀ e ∈ l₁, e.transfer_probability < h.transfer_probability) →
      s.1 < h.transfer_probability →
      (∀ e ∈ l₂, e.transfer_probability ≤ h.transfer_probability) →
      bestFold (l₁ ++ h :: l₂) s = (h.transfer_probability, h.target_club) := by
  intro l₁
  induction l₁ with
  | nil =>
    intro h l₂ s _ hs hl₂
    simp only [List.nil_append, bestFold, List.foldl_cons]
    rw [show bestStep s h = (h.transfer_probability, h.target_club) from by simp [bestStep, hs]]
    exact bestFold_const l₂ _ hl₂
  | cons x t ih =>
    intro h l₂ s hlt hs hl₂
    simp only [List.cons_append, bestFold, List.foldl_cons]
    have hx : (bestStep s x).1 < h.transfer_probability := by
      simp only [bestStep]
      split
    -- both branches are below h
      · exact hlt x (by simp)
      · exact hs
    exact ih h l₂ (bestStep s x) (fun e he => hlt e (List.mem_cons_of_mem _ he)) hx hl₂

lemma resolvedResponses_eq (P : Predictor) (pd : PlayerDict) :
    ∀ clubs : List String,
      (∀ c ∈ clubs, (P.clubs.lookup c).isSome = true →
        (predict_transfer_probability P pd c).isOk = true) →
      resolvedResponses P pd clubs
        = (clubs.filter fun c => (P.clubs.lookup c).isSome).map
            fun c => mcResp c (okValue (predict_transfer_probability P pd c)) := by
  intro clubs
  induction clubs with
  | nil => intro _; rfl
  | cons c cs ih =>
    intro hOk
    have htail := ih fun x hx hr => hOk x (List.mem_cons_of_mem _ hx) hr
    simp only [resolvedResponses, List.filterMap_cons, List.filter_cons] at htail ⊢
    by_cases hc : (P.clubs.lookup c).isSome = true
    · have hok := hOk c (by simp) hc
      cases hp : predict_transfer_probability P pd c with
      | error e =>
        rw [hp] at hok
        simp [Except.isOk, Except.toBool] at hok
      | ok r =>
        rw [htail]
        simp [hc, hp, Except.toOption, okValue]
    · simp [hc, htail]

lemma filter_partition_length (p : String → Bool) :
    ∀ l : List String, (l.filter p).length + (l.filter fun c => !(p c)).length = l.length := by
  intro l
  induction l with
  | nil => rfl
  | cons c t ih =>
    rcases Bool.eq_false_or_eq_true (p c) with hc | hc
    · simp only [List.filter_cons, hc, Bool.not_false, if_neg, List.length_cons]
      simp [hc]
      omega
    · simp only [List.filter_cons, hc, Bool.not_true, List.length_cons]
      simp
      omega

/-- C2 (amended): the multi-club prediction returns per-club results for
exactly the registry-resolving club names — each unknown name shrinks the
output by exactly one, without failing the call — sorted descending by
probability with ties kept in original input order, and, provided some
resolved club has a strictly positive probability, the club of the first
entry is the reported best fit.  (When every resolved probability is 0,
or nothing resolves, the loop's strict `>` against the initial best of 0
never fires and the reported best fit is the empty string.) -/
theorem C2_multi_club_ranking (P : Predictor) (pd : PlayerDict) (clubs : List String)
    (hOk : ∀ c ∈ clubs, (P.clubs.lookup c).isSome = true →
      (predict_transfer_probability P pd c).isOk = true) :
    (predict_multi_club P pd clubs).predictions.Pairwise respGE
    ∧ ((predict_multi_club P pd clubs).predictions.map fun e => e.target_club).Perm
        (clubs.filter fun c => (P.clubs.lookup c).isSome)
    ∧ (predict_multi_club P pd clubs).predictions.length
        + (clubs.filter fun c => !(P.clubs.lookup c).isSome).length = clubs.length
    ∧ (∀ q : ℚ, (predict_multi_club P pd clubs).predictions.filter
          (fun e => decide (e.transfer_probability = q))
        = (resolvedResponses P pd clubs).filter fun e => decide (e.transfer_probability = q))
    ∧ ∀ c ∈ clubs, (P.clubs.lookup c).isSome = true →
        0 < (okValue (predict_transfer_probability P pd c)).transfer_probability →
        ∃ h t', (predict_multi_club P pd clubs).predictions = h :: t'
          ∧ (predict_multi_club P pd clubs).best_fit = h.target_club := by
  have hfold := mcFoldl_spec P pd clubs ⟨[], 0, ""⟩
  have hpred : (predict_multi_club P pd clubs).predictions
      = List.insertionSort respGE (resolvedResponses P pd clubs) := by
    simp [predict_multi_club, hfold]
  have hbest : (predict_multi_club P pd clubs).best_fit
      = (bestFold (resolvedResponses P pd clubs) (0, "")).2 := by
    simp [predict_multi_club, hfold]
  have hRR := resolvedResponses_eq P pd clubs hOk
  refine ⟨?_, ?_, ?_, ?_, ?_⟩
  · rw [hpred]
    exact List.sorted_insertionSort respGE _
  · rw [hpred]
    refine ((List.perm_insertionSort respGE _).map _).trans ?_
    rw [hRR, List.map_map]
    have hid : ((fun e => e.target_club)
        ∘ fun c => mcResp c (okValue (predict_transfer_probability P pd c))) = id := by
      funext c
      rfl
    rw [hid, List.map_id]
  · rw [hpred, List.length_insertionSort, hRR, List.length_map]
    exact filter_partition_length _ clubs
  · intro q
    rw [hpred]
    exact sort_filter_stable q _
  · intro c hc hres hpos
    have hmem : mcResp c (okValue (predict_transfer_probability P pd c))
        ∈ resolvedResponses P pd clubs := by
      rw [hRR]
      exact List.mem_map_of_mem _ (List.mem_filter.mpr ⟨hc, hres⟩)
    have hne : resolvedResponses P pd clubs ≠ [] := fun h0 => by
      rw [h0] at hmem
      cases hmem
    cases hsort : List.insertionSort respGE (resolvedResponses P pd clubs) with
    | nil =>
      exfalso
      have hlen := List.length_insertionSort respGE (resolvedResponses P pd clubs)
      rw [hsort] at hlen
      exact hne (List.length_eq_zero.mp hlen.symm)
    | cons h t' =>
      obtain ⟨l₁, l₂, hd, hlt, hmax⟩ := sort_head_firstmax _ h t' hsort
      have hhead : (0 : ℚ) < h.transfer_probability := lt_of_lt_of_le hpos (hmax _ hmem)
      have hl2 : ∀ e ∈ l₂, e.transfer_probability ≤ h.transfer_probability := fun e he =>
        hmax e (by
          rw [hd]
          exact List.mem_append_right _ (List.mem_cons_of_mem _ he))
      refine ⟨h, t', by rw [hpred, hsort], ?_⟩
      rw [hbest, hd, bestFold_hit l₁ h l₂ (0, "") hlt hhead hl2]

theorem C2_multi_club_ranking_witness :
    (predict_multi_club probePredictor emptyPlayerDict ["Arsenal", "Unknown FC"]).predictions.Pairwise respGE
    ∧ ((predict_multi_club probePredictor emptyPlayerDict
          ["Arsenal", "Unknown FC"]).predictions.map fun e => e.target_club).Perm
        (["Arsenal", "Unknown FC"].filter fun c => (probePredictor.clubs.lookup c).isSome)
    ∧ (predict_multi_club probePredictor emptyPlayerDict ["Arsenal", "Unknown FC"]).predictions.length
        + (["Arsenal", "Unknown FC"].filter fun c => !(probePredictor.clubs.lookup c).isSome).length
        = (["Arsenal", "Unknown FC"] : List String).length
    ∧ (∀ q : ℚ, (predict_multi_club probePredictor emptyPlayerDict
          ["Arsenal", "Unknown FC"]).predictions.filter
          (fun e => decide (e.transfer_probability = q))
        = (resolvedResponses probePredictor emptyPlayerDict
            ["Arsenal", "Unknown FC"]).filter fun e => decide (e.transfer_probability = q))
    ∧ ∀ c ∈ (["Arsenal", "Unknown FC"] : List String),
        (probePredictor.clubs.lookup c).isSome = true →
        0 < (okValue (predict_transfer_probability probePredictor
              emptyPlayerDict c)).transfer_probability →
        ∃ h t', (predict_multi_club probePredictor emptyPlayerDict
            ["Arsenal", "Unknown FC"]).predictions = h :: t'
          ∧ (predict_multi_club probePredictor emptyPlayerDict
              ["Arsenal", "Unknown FC"]).best_fit = h.target_club :=
  C2_multi_club_ranking probePredictor emptyPlayerDict ["Arsenal", "Unknown FC"]
    fun c _ _ => predict_isOk probePredictor emptyPlayerDict c ⟨by decide, fun _ => rfl, rfl⟩

/-- The loaded predictor whose classifier reports probability 0 for every
input (an admissible `predict_proba` output). -/
def zeroPredictor : Predictor := { probePredictor with model := fun _ => (0, 0) }

/-- C2 counterexample: with an all-zero probability model and the single
club list `["Arsenal"]`, the sorted output's first entry is the Arsenal
entry, but the reported best fit is the empty string — the loop's strict
`>` against the initial best probability of 0 never fires — so the first
entry's club differs from the reported best-fit club. -/
theorem C2_counterexample :
    ((predict_multi_club zeroPredictor emptyPlayerDict ["Arsenal"]).predictions.map
        fun e => e.target_club) = ["Arsenal"]
    ∧ (predict_multi_club zeroPredictor emptyPlayerDict ["Arsenal"]).best_fit = ""
    ∧ ("Arsenal" : String) ≠ "" := by
  have hp : predict_transfer_probability zeroPredictor emptyPlayerDict "Arsenal"
      = .ok ⟨0, 0, "High"⟩ := by
    rw [predict_eval_of zeroPredictor emptyPlayerDict "Arsenal" probeVec rfl rfl]
    norm_num [zeroPredictor, probePredictor]
  have hl : ((zeroPredictor.clubs.lookup "Arsenal").isSome) = true := rfl
  have hRR : resolvedResponses zeroPredictor emptyPlayerDict ["Arsenal"]
      = [mcResp "Arsenal" ⟨0, 0, "High"⟩] := by
    simp [resolvedResponses, hl, hp, Except.toOption]
  have hfold := mcFoldl_spec zeroPredictor emptyPlayerDict ["Arsenal"] ⟨[], 0, ""⟩
  refine ⟨?_, ?_, by decide⟩
  · simp [predict_multi_club, hfold, hRR, mcResp]
  · simp [predict_multi_club, hfold, hRR, bestFold, bestStep, mcResp]

end Leaseon
